import Mathlib

/-!
Verification development for the ib-analysis repository.

The two numerical subsystems under scrutiny are the Black-Scholes-Merton
pricing engine with its portfolio Greeks aggregator
(`src/greeks/black_scholes.py`, `src/greeks/calculator.py`,
`src/greeks/models.py`) and the Monte Carlo portfolio simulator
(`src/monte_carlo/simulator.py`, `src/monte_carlo/models.py`).

Modelling conventions:

* Python floats are modelled as exact rationals (`ℚ`).  Claims phrased
  "within floating tolerance" are settled exactly: a confirmed identity
  holds exactly in the rational model, and every refutation below exhibits
  a gap that is orders of magnitude larger than any rounding tolerance.
* The transcendental library routines the code calls (`math.exp`,
  `math.log`, `math.sqrt`, `scipy.stats.norm.cdf/pdf`, `math.pi`,
  `np.linalg.cholesky`) are external to the repository; they are modelled
  as an abstract bundle `MathPrims` of functions on `ℚ` carrying exactly
  the two facts the proofs use about the real functions: positivity of
  square roots on positive arguments and the reflection identity
  N(x) + N(-x) = 1 of the standard normal CDF.  Every concrete evaluation
  below instantiates the bundle with an explicit witness (`ratPrims`) that
  agrees with the genuine real-valued functions on every value the evaluated
  code path actually consumes.
* Python raising an exception is modelled with `Except`; total code is a
  plain function.  Rational division in Lean is total (`x / 0 = 0`);
  everywhere the embedded code divides, either the source guards the
  denominator on the same branch or the division site is modelled with an
  explicit zero test (see `implied_volatility`).
* `numpy` arrays are modelled as functions from indices to `ℚ`;
  `np.random.Generator` is modelled as a stream of draws plus a cursor:
  drawing a block of shape (r, c) consumes r*c consecutive stream values
  in C order, exactly the amount of randomness the generator consumes.
-/

namespace IBAnalysis

/-- Abstract bundle standing for the external math library functions used by
`src/greeks/black_scholes.py` and `src/monte_carlo/simulator.py`
(`math.exp/log/sqrt/pi`, `scipy.stats.norm.cdf/pdf`, `np.linalg.cholesky`).
The two propositional fields are the only analytic facts any proof in this
file uses about the real functions. -/
structure MathPrims where
  exp : ℚ → ℚ
  log : ℚ → ℚ
  sqrt : ℚ → ℚ
  normCdf : ℚ → ℚ
  normPdf : ℚ → ℚ
  pi : ℚ
  cholesky : (ℕ → ℕ → ℚ) → (ℕ → ℕ → ℚ)
  sqrt_pos : ∀ x : ℚ, 0 < x → 0 < sqrt x
  normCdf_reflection : ∀ x : ℚ, normCdf x + normCdf (-x) = 1

/-- Concrete instantiation of `MathPrims` used for closed evaluations.  On
every input actually consumed by the evaluated code paths below (exp at 0,
the normal CDF at 0) it returns the value of the genuine real function. -/
def ratPrims : MathPrims where
  exp := fun _ => 1
  log := fun _ => 0
  sqrt := fun x => if 0 < x then 1 else 0
  normCdf := fun _ => 1/2
  normPdf := fun _ => 0
  pi := 3
  cholesky := fun A => A
  sqrt_pos := by
    intro x hx
    simp [hx]
  normCdf_reflection := by
    intro x
    norm_num

namespace BlackScholesModel

/-- Embeds `BlackScholesModel.d1` (black_scholes.py lines 24-56): degenerate
inputs (non-positive time, volatility, spot or strike) return 0, otherwise
the standard d1 formula. -/
def d1 (p : MathPrims) (spot strike time_to_expiry rate volatility dividend_yield : ℚ) : ℚ :=
  if time_to_expiry ≤ 0 ∨ volatility ≤ 0 ∨ spot ≤ 0 ∨ strike ≤ 0 then 0
  else
    (p.log (spot / strike) + (rate - dividend_yield + 1/2 * volatility^2) * time_to_expiry) /
      (volatility * p.sqrt time_to_expiry)

/-- Embeds `BlackScholesModel.d2` (lines 58-73): 0 on the degenerate guard,
otherwise d1 - sigma*sqrt(t). -/
def d2 (p : MathPrims) (spot strike time_to_expiry rate volatility dividend_yield : ℚ) : ℚ :=
  if time_to_expiry ≤ 0 ∨ volatility ≤ 0 then 0
  else d1 p spot strike time_to_expiry rate volatility dividend_yield -
    volatility * p.sqrt time_to_expiry

/-- Embeds `BlackScholesModel.call_price` (lines 75-110): intrinsic value at
non-positive time, otherwise the BSM formula clamped at 0 by `max(0, call)`. -/
def call_price (p : MathPrims) (spot strike time_to_expiry rate volatility dividend_yield : ℚ) : ℚ :=
  if time_to_expiry ≤ 0 then max 0 (spot - strike)
  else
    max 0
      (spot * p.exp (-dividend_yield * time_to_expiry) *
          p.normCdf (d1 p spot strike time_to_expiry rate volatility dividend_yield) -
        strike * p.exp (-rate * time_to_expiry) *
          p.normCdf (d2 p spot strike time_to_expiry rate volatility dividend_yield))

/-- Embeds `BlackScholesModel.put_price` (lines 112-138): intrinsic value at
non-positive time, otherwise the direct BSM put formula clamped at 0. -/
def put_price (p : MathPrims) (spot strike time_to_expiry rate volatility dividend_yield : ℚ) : ℚ :=
  if time_to_expiry ≤ 0 then max 0 (strike - spot)
  else
    max 0
      (strike * p.exp (-rate * time_to_expiry) *
          p.normCdf (-(d2 p spot strike time_to_expiry rate volatility dividend_yield)) -
        spot * p.exp (-dividend_yield * time_to_expiry) *
          p.normCdf (-(d1 p spot strike time_to_expiry rate volatility dividend_yield)))

/-- Embeds `BlackScholesModel.delta` (lines 140-172).  At non-positive time
the call returns 1 when spot > strike else 0 and the put returns -1 when
spot < strike else 0; otherwise N(d1)*e^(-qt) resp. (N(d1)-1)*e^(-qt). -/
def delta (p : MathPrims) (spot strike time_to_expiry rate volatility : ℚ) (is_call : Bool)
    (dividend_yield : ℚ) : ℚ :=
  if time_to_expiry ≤ 0 then
    if is_call then (if strike < spot then 1 else 0)
    else (if spot < strike then -1 else 0)
  else
    let discount := p.exp (-dividend_yield * time_to_expiry)
    if is_call then
      p.normCdf (d1 p spot strike time_to_expiry rate volatility dividend_yield) * discount
    else
      (p.normCdf (d1 p spot strike time_to_expiry rate volatility dividend_yield) - 1) * discount

/-- Embeds `BlackScholesModel.gamma` (lines 174-202). -/
def gamma (p : MathPrims) (spot strike time_to_expiry rate volatility dividend_yield : ℚ) : ℚ :=
  if time_to_expiry ≤ 0 ∨ volatility ≤ 0 ∨ spot ≤ 0 then 0
  else
    p.normPdf (d1 p spot strike time_to_expiry rate volatility dividend_yield) *
        p.exp (-dividend_yield * time_to_expiry) /
      (spot * volatility * p.sqrt time_to_expiry)

/-- Embeds `BlackScholesModel.theta` (lines 204-244): full BSM annual theta
divided by 365 to give a daily value; 0 at non-positive time. -/
def theta (p : MathPrims) (spot strike time_to_expiry rate volatility : ℚ) (is_call : Bool)
    (dividend_yield : ℚ) : ℚ :=
  if time_to_expiry ≤ 0 then 0
  else
    let d1_val := d1 p spot strike time_to_expiry rate volatility dividend_yield
    let d2_val := d2 p spot strike time_to_expiry rate volatility dividend_yield
    let sqrt_t := p.sqrt time_to_expiry
    let discount_q := p.exp (-dividend_yield * time_to_expiry)
    let discount_r := p.exp (-rate * time_to_expiry)
    let term1 := -(spot * volatility * discount_q * p.normPdf d1_val) / (2 * sqrt_t)
    let term2 :=
      if is_call then dividend_yield * spot * discount_q * p.normCdf d1_val
      else -dividend_yield * spot * discount_q * p.normCdf (-d1_val)
    let term3 :=
      if is_call then -rate * strike * discount_r * p.normCdf d2_val
      else rate * strike * discount_r * p.normCdf (-d2_val)
    (term1 + term2 + term3) / 365

/-- Embeds `BlackScholesModel.vega` (lines 246-273), scaled per 1% change in
volatility. -/
def vega (p : MathPrims) (spot strike time_to_expiry rate volatility dividend_yield : ℚ) : ℚ :=
  if time_to_expiry ≤ 0 ∨ spot ≤ 0 then 0
  else
    spot * p.sqrt time_to_expiry *
        p.normPdf (d1 p spot strike time_to_expiry rate volatility dividend_yield) *
        p.exp (-dividend_yield * time_to_expiry) * (1/100)

/-- Embeds `BlackScholesModel.rho` (lines 275-304), scaled per 1% change in
rate. -/
def rho (p : MathPrims) (spot strike time_to_expiry rate volatility : ℚ) (is_call : Bool)
    (dividend_yield : ℚ) : ℚ :=
  if time_to_expiry ≤ 0 then 0
  else
    let d2_val := d2 p spot strike time_to_expiry rate volatility dividend_yield
    let discount := p.exp (-rate * time_to_expiry)
    if is_call then strike * time_to_expiry * discount * p.normCdf d2_val * (1/100)
    else -strike * time_to_expiry * discount * p.normCdf (-d2_val) * (1/100)

end BlackScholesModel

/-- Embeds the `Greeks` value object (greeks/models.py lines 9-21): five raw
Greeks plus four dollar-denominated Greeks, all defaulting to 0. -/
@[ext]
structure Greeks where
  delta : ℚ := 0
  gamma : ℚ := 0
  theta : ℚ := 0
  vega : ℚ := 0
  rho : ℚ := 0
  delta_dollars : ℚ := 0
  gamma_dollars : ℚ := 0
  theta_dollars : ℚ := 0
  vega_dollars : ℚ := 0
deriving DecidableEq

/-- Embeds `Greeks.__add__` (models.py lines 23-35): component-wise sum. -/
def Greeks.add (a b : Greeks) : Greeks where
  delta := a.delta + b.delta
  gamma := a.gamma + b.gamma
  theta := a.theta + b.theta
  vega := a.vega + b.vega
  rho := a.rho + b.rho
  delta_dollars := a.delta_dollars + b.delta_dollars
  gamma_dollars := a.gamma_dollars + b.gamma_dollars
  theta_dollars := a.theta_dollars + b.theta_dollars
  vega_dollars := a.vega_dollars + b.vega_dollars

/-- Embeds `Greeks.__mul__` (models.py lines 37-49): scalar scaling. -/
def Greeks.smul (a : Greeks) (scalar : ℚ) : Greeks where
  delta := a.delta * scalar
  gamma := a.gamma * scalar
  theta := a.theta * scalar
  vega := a.vega * scalar
  rho := a.rho * scalar
  delta_dollars := a.delta_dollars * scalar
  gamma_dollars := a.gamma_dollars * scalar
  theta_dollars := a.theta_dollars * scalar
  vega_dollars := a.vega_dollars * scalar

namespace BlackScholesModel

/-- Embeds `BlackScholesModel.calculate_all_greeks` (black_scholes.py lines
306-370): per-share Greeks scaled by position_size * multiplier, with the
dollar Greeks of lines 358-362. -/
def calculate_all_greeks (p : MathPrims)
    (spot strike time_to_expiry rate volatility : ℚ) (is_call : Bool)
    (dividend_yield position_size : ℚ) (multiplier : ℤ) : Greeks :=
  let delta_v := delta p spot strike time_to_expiry rate volatility is_call dividend_yield
  let gamma_v := gamma p spot strike time_to_expiry rate volatility dividend_yield
  let theta_v := theta p spot strike time_to_expiry rate volatility is_call dividend_yield
  let vega_v := vega p spot strike time_to_expiry rate volatility dividend_yield
  let rho_v := rho p spot strike time_to_expiry rate volatility is_call dividend_yield
  let total_multiplier := position_size * (multiplier : ℚ)
  { delta := delta_v * total_multiplier
    gamma := gamma_v * total_multiplier
    theta := theta_v * total_multiplier
    vega := vega_v * total_multiplier
    rho := rho_v * total_multiplier
    delta_dollars := delta_v * total_multiplier * spot
    gamma_dollars := gamma_v * total_multiplier * spot * (1/100)
    theta_dollars := theta_v * total_multiplier
    vega_dollars := vega_v * total_multiplier }

/-- Embeds the Newton-Raphson loop of `BlackScholesModel.implied_volatility`
(black_scholes.py lines 408-426).  Each iteration prices at the current
estimate, returns it when |price - market| < precision, stops when
|vega*100| < 1e-10, and otherwise updates by the Newton step clamped to
[0.01, 5.0].  The fuel argument is the remaining iteration count; exhausting
it returns the last estimate.  Every division in the loop has a denominator
the source guards on the same branch, so total rational division is exact. -/
def iv_loop (p : MathPrims) (spot strike time_to_expiry rate : ℚ) (is_call : Bool)
    (dividend_yield precision option_price : ℚ) : ℚ → ℕ → ℚ
  | iv, 0 => iv
  | iv, n + 1 =>
    let price :=
      if is_call then call_price p spot strike time_to_expiry rate iv dividend_yield
      else put_price p spot strike time_to_expiry rate iv dividend_yield
    let vega_v := vega p spot strike time_to_expiry rate iv dividend_yield * 100
    let diff := price - option_price
    if |diff| < precision then iv
    else if |vega_v| < 1/10^10 then iv
    else
      iv_loop p spot strike time_to_expiry rate is_call dividend_yield precision option_price
        (max (1/100) (min 5 (iv - diff / vega_v))) n

/-- Embeds `BlackScholesModel.implied_volatility` (lines 372-426).  The early
guard returns 0 for non-positive time or price.  The Brenner-Subrahmanyam
initial guess `sqrt(2*pi/T) * price / spot` divides by `spot`; Python float
division raises ZeroDivisionError when `spot == 0`, modelled as `Except.error`.
All further arithmetic is total, so every other input returns `Except.ok`. -/
def implied_volatility (p : MathPrims) (option_price spot strike time_to_expiry rate : ℚ)
    (is_call : Bool) (dividend_yield precision : ℚ) (max_iterations : ℕ) : Except String ℚ :=
  if time_to_expiry ≤ 0 ∨ option_price ≤ 0 then Except.ok 0
  else if spot = 0 then Except.error ("ZeroDivisionError: float division by zero")
  else
    Except.ok
      (iv_loop p spot strike time_to_expiry rate is_call dividend_yield precision option_price
        (p.sqrt (2 * p.pi / time_to_expiry) * option_price / spot) max_iterations)

end BlackScholesModel

/-- Embeds the `GreeksCalculator` constructor state (calculator.py lines
33-50) with its default rate, default volatility and default dividend
yield. -/
structure GreeksCalculator where
  risk_free_rate : ℚ := 5/100
  default_volatility : ℚ := 25/100
  default_dividend_yield : ℚ := 0

/-- Embeds `GreeksCalculator.calculate_option_greeks` (calculator.py lines
57-119).  At `expiry_days <= 0` it builds the at-expiry Greeks from
`intrinsic_delta = 1.0 if (is_call and spot > strike) or (not is_call and
spot < strike) else 0.0` (line 87) - note the +1 for in-the-money puts.
Otherwise it defers to `calculate_all_greeks` with days converted to years
and the volatility/dividend defaults applied. -/
def GreeksCalculator.calculate_option_greeks (c : GreeksCalculator) (p : MathPrims)
    (spot strike : ℚ) (expiry_days : ℤ) (volatility : ℚ) (is_call : Bool)
    (position_size : ℚ) (multiplier : ℤ) (dividend_yield : Option ℚ) : Greeks :=
  if expiry_days ≤ 0 then
    let intrinsic_delta : ℚ :=
      if (is_call ∧ strike < spot) ∨ (¬(is_call = true) ∧ spot < strike) then 1 else 0
    { delta := intrinsic_delta * position_size * (multiplier : ℚ)
      gamma := 0
      theta := 0
      vega := 0
      rho := 0
      delta_dollars := intrinsic_delta * position_size * (multiplier : ℚ) * spot
      gamma_dollars := 0
      theta_dollars := 0
      vega_dollars := 0 }
  else
    let time_to_expiry := (expiry_days : ℚ) / 365
    let q := dividend_yield.getD c.default_dividend_yield
    let vol := if 0 < volatility then volatility else c.default_volatility
    BlackScholesModel.calculate_all_greeks p spot strike time_to_expiry c.risk_free_rate vol
      is_call q position_size multiplier

end IBAnalysis

namespace IBAnalysis

/-- C1: at non-positive time-to-expiry the standalone `delta` returns the
sign-indicator intrinsic delta (-1 for an in-the-money put), but the
aggregator path `GreeksCalculator.calculate_option_greeks` (calculator.py
line 87) computes `intrinsic_delta = 1.0` for the same in-the-money put, so
the two paths disagree: at spot 90, strike 100, 0 days, the standalone
per-share delta is -1 while the aggregator returns +1 per share (+100 after
scaling by position_size 1 and multiplier 100).  No transcendental function
is consulted on this code path, so the evaluation is exact. -/
theorem c1_expiry_put_delta_divergence :
    BlackScholesModel.delta ratPrims 90 100 0 (1/20) (1/4) false 0 = -1 ∧
    (GreeksCalculator.calculate_option_greeks {} ratPrims 90 100 0 (1/4) false 1 100
        none).delta = 100 := by
  constructor
  · norm_num [BlackScholesModel.delta]
  · norm_num [GreeksCalculator.calculate_option_greeks]

/-- C2 counterexample: with sigma = 0 (degenerate d1 = d2 = 0), S = 100,
K = 50, T = 1, r = q = 0, the code gives call - put = 25 while
S*e^(-qT) - K*e^(-rT) = 50: the `max(0, .)` clamp zeroes the negative raw
put value and parity fails by 25, far beyond floating tolerance.  On this
input the only external values consumed are exp 0 = 1 and N(0) = 1/2, on
which `ratPrims` agrees with the real functions. -/
theorem c2_parity_fails_at_zero_vol :
    BlackScholesModel.call_price ratPrims 100 50 1 0 0 0 -
        BlackScholesModel.put_price ratPrims 100 50 1 0 0 0 = 25 ∧
      (100 : ℚ) * ratPrims.exp (-(0 : ℚ) * 1) - 50 * ratPrims.exp (-(0 : ℚ) * 1) = 50 := by
  constructor
  · norm_num [BlackScholesModel.call_price, BlackScholesModel.put_price,
      BlackScholesModel.d1, BlackScholesModel.d2, ratPrims]
  · norm_num [ratPrims]

/-- C2 amended: put-call parity `call_price - put_price = S*e^(-qT) - K*e^(-rT)`
holds exactly whenever T > 0 and neither clamp `max(0, .)` binds, i.e. both
unclamped BSM values are nonnegative (always true of the genuine normal CDF
when sigma > 0 and S, K > 0).  The proof uses only the reflection identity
N(x) + N(-x) = 1.  With sigma <= 0 a clamp binds and parity fails
(`c2_parity_fails_at_zero_vol`). -/
theorem c2_put_call_parity_unclamped (p : MathPrims) (S K T r v q : ℚ)
    (hT : 0 < T)
    (hc : 0 ≤ S * p.exp (-q * T) * p.normCdf (BlackScholesModel.d1 p S K T r v q) -
      K * p.exp (-r * T) * p.normCdf (BlackScholesModel.d2 p S K T r v q))
    (hp : 0 ≤ K * p.exp (-r * T) * p.normCdf (-(BlackScholesModel.d2 p S K T r v q)) -
      S * p.exp (-q * T) * p.normCdf (-(BlackScholesModel.d1 p S K T r v q))) :
    BlackScholesModel.call_price p S K T r v q - BlackScholesModel.put_price p S K T r v q =
      S * p.exp (-q * T) - K * p.exp (-r * T) := by
  have hT' : ¬ (T ≤ 0) := not_le.mpr hT
  unfold BlackScholesModel.call_price BlackScholesModel.put_price
  rw [if_neg hT', if_neg hT', max_eq_right hc, max_eq_right hp]
  have h1 := p.normCdf_reflection (BlackScholesModel.d1 p S K T r v q)
  have h2 := p.normCdf_reflection (BlackScholesModel.d2 p S K T r v q)
  linear_combination (S * p.exp (-q * T)) * h1 - (K * p.exp (-r * T)) * h2

/-- C2 witness: the amended parity theorem applied at the concrete input
S = K = 100, T = 1, r = q = 0, sigma = 0 under `ratPrims`, where both
unclamped values are 0 and parity holds with both sides 0. -/
theorem c2_put_call_parity_unclamped_witness :
    (0 : ℚ) < 1 ∧
      BlackScholesModel.call_price ratPrims 100 100 1 0 0 0 -
          BlackScholesModel.put_price ratPrims 100 100 1 0 0 0 =
        100 * ratPrims.exp (-(0 : ℚ) * 1) - 100 * ratPrims.exp (-(0 : ℚ) * 1) :=
  ⟨by norm_num,
    c2_put_call_parity_unclamped ratPrims 100 100 1 0 0 0 (by norm_num)
      (by norm_num [ratPrims]) (by norm_num [ratPrims])⟩

/-- C3 counterexample: `implied_volatility` with market price 1, spot 0,
T = 1 reaches the Brenner-Subrahmanyam initial guess
`sqrt(2*pi/T) * price / spot` and Python raises ZeroDivisionError (the
early-return guards only cover non-positive time or price), so the solver
does not return a value on every input. -/
theorem c3_iv_raises_at_zero_spot :
    BlackScholesModel.implied_volatility ratPrims 1 0 100 1 0 true 0 (1/10000) 100 =
      Except.error ("ZeroDivisionError: float division by zero") := by
  norm_num [BlackScholesModel.implied_volatility]

/-- C3 amended: for every input with spot ≠ 0 the solver returns a value and
never raises - the degenerate guard returns 0, and otherwise the clamped
Newton-Raphson loop is total (it either converges within the iteration
budget, stops on a vanishing vega, or returns the last estimate). -/
theorem c3_iv_total_when_spot_nonzero (p : MathPrims)
    (option_price spot strike time_to_expiry rate : ℚ) (is_call : Bool)
    (dividend_yield precision : ℚ) (max_iterations : ℕ) (h : spot ≠ 0) :
    ∃ v : ℚ, BlackScholesModel.implied_volatility p option_price spot strike time_to_expiry
      rate is_call dividend_yield precision max_iterations = Except.ok v := by
  unfold BlackScholesModel.implied_volatility
  by_cases h1 : time_to_expiry ≤ 0 ∨ option_price ≤ 0
  · exact ⟨0, by simp [h1]⟩
  · exact ⟨_, by rw [if_neg h1, if_neg h]⟩

/-- C3 witness: the totality theorem applied at spot 1 (with
`max_iterations = 100` as in the source default). -/
theorem c3_iv_total_when_spot_nonzero_witness :
    (1 : ℚ) ≠ 0 ∧
      ∃ v : ℚ, BlackScholesModel.implied_volatility ratPrims 1 1 100 1 (1/20) true 0
        (1/10000) 100 = Except.ok v :=
  ⟨by norm_num,
    c3_iv_total_when_spot_nonzero ratPrims 1 1 100 1 (1/20) true 0 (1/10000) 100
      (by norm_num)⟩

end IBAnalysis

namespace IBAnalysis

/-- Interpolation step of `np.percentile` on an already-sorted list: with
n = length, pos = q*(n-1)/100 and i = floor(pos), linearly interpolate
between the i-th and (i+1)-th order statistics (numpy's default "linear"
method), falling back to the last element when i+1 is out of range. -/
def percentile_of_sorted (s : List ℚ) (q : ℚ) : ℚ :=
  let n := s.length
  let pos := q * ((n : ℚ) - 1) / 100
  let i := (⌊pos⌋).toNat
  if i + 1 < n then s.getD i 0 + (pos - (i : ℚ)) * (s.getD (i + 1) 0 - s.getD i 0)
  else s.getD (n - 1) 0

/-- Models `np.percentile(values, q)` (default linear interpolation): sort
ascending and interpolate the order statistics. -/
def np_percentile (values : List ℚ) (q : ℚ) : ℚ :=
  percentile_of_sorted (values.insertionSort (· ≤ ·)) q

/-- Models `np.mean` on a rational list.  On the empty list numpy emits nan
with a warning; the rational model returns 0, and every statement below
constrains to nonempty input. -/
def list_mean (l : List ℚ) : ℚ := l.sum / l.length

/-- The VaR/CVaR fields of `SimulationStatistics` (monte_carlo/models.py
lines 69-72) that the claims reference. -/
structure RiskStats where
  var_95 : ℚ
  var_99 : ℚ
  cvar_95 : ℚ
  cvar_99 : ℚ
deriving DecidableEq

/-- Embeds the VaR/CVaR block of `MonteCarloSimulator._calculate_statistics`
(simulator.py lines 401-409): `var_95 = initial_value - np.percentile(final,
5)`, `var_99` analogously at the 1st percentile (no clamping at 0), and
CVaR as initial value minus the mean of the final values at or below the
percentile threshold. -/
def calculate_statistics (initial_value : ℚ) (final_values : List ℚ) : RiskStats :=
  let var_95 := initial_value - np_percentile final_values 5
  let var_99 := initial_value - np_percentile final_values 1
  let var_95_threshold := np_percentile final_values 5
  let var_99_threshold := np_percentile final_values 1
  let cvar_95 :=
    initial_value - list_mean (final_values.filter (fun v => v ≤ var_95_threshold))
  let cvar_99 :=
    initial_value - list_mean (final_values.filter (fun v => v ≤ var_99_threshold))
  { var_95 := var_95, var_99 := var_99, cvar_95 := cvar_95, cvar_99 := cvar_99 }

lemma head_le_percentile_of_sorted (a : ℚ) (t : List ℚ) (q : ℚ) (hq : 0 ≤ q)
    (hsorted : (a :: t).Sorted (· ≤ ·)) :
    a ≤ percentile_of_sorted (a :: t) q := by
  have hmin : ∀ x ∈ a :: t, a ≤ x := by
    intro x hx
    rcases List.mem_cons.mp hx with h | h
    · exact h ▸ le_refl a
    · exact List.rel_of_sorted_cons hsorted x h
  unfold percentile_of_sorted
  set n := (a :: t).length with hn
  have hn1 : 1 ≤ n := by simp [hn]
  set pos := q * ((n : ℚ) - 1) / 100 with hpos
  have hpos0 : 0 ≤ pos := by
    apply div_nonneg (mul_nonneg hq ?_) (by norm_num)
    have h1 : (1 : ℚ) ≤ (n : ℚ) := by exact_mod_cast hn1
    linarith
  set i := (⌊pos⌋).toNat with hi
  have hcast : ((i : ℚ)) = ((⌊pos⌋ : ℤ) : ℚ) := by
    rw [hi]
    exact_mod_cast Int.toNat_of_nonneg (Int.floor_nonneg.mpr hpos0)
  have hic : (i : ℚ) ≤ pos := by
    rw [hcast]
    exact Int.floor_le pos
  have hic1 : pos ≤ (i : ℚ) + 1 := by
    rw [hcast]
    have := Int.lt_floor_add_one pos
    push_cast at this ⊢
    linarith
  by_cases hbr : i + 1 < n
  · have hiln : i < n := Nat.lt_of_succ_lt hbr
    have hlo : a ≤ (a :: t).getD i 0 := by
      rw [List.getD_eq_getElem _ _ (hn ▸ hiln)]
      exact hmin _ (List.getElem_mem _)
    have hhi : a ≤ (a :: t).getD (i + 1) 0 := by
      rw [List.getD_eq_getElem _ _ (hn ▸ hbr)]
      exact hmin _ (List.getElem_mem _)
    rw [if_pos hbr]
    nlinarith [mul_nonneg (sub_nonneg.mpr hic1) (sub_nonneg.mpr hlo),
      mul_nonneg (sub_nonneg.mpr hic) (sub_nonneg.mpr hhi)]
  · rw [if_neg hbr]
    have hlast : n - 1 < n := Nat.sub_lt (by omega) one_pos
    rw [List.getD_eq_getElem _ _ (hn ▸ hlast)]
    exact hmin _ (List.getElem_mem _)

lemma exists_mem_le_np_percentile (l : List ℚ) (q : ℚ) (hl : l ≠ []) (hq : 0 ≤ q) :
    ∃ x ∈ l, x ≤ np_percentile l q := by
  have hperm : (l.insertionSort (· ≤ ·)).Perm l := List.perm_insertionSort _ _
  have hsorted : (l.insertionSort (· ≤ ·)).Sorted (· ≤ ·) := List.sorted_insertionSort _ _
  have hsne : l.insertionSort (· ≤ ·) ≠ [] := by
    intro hnil
    apply hl
    have := hperm.length_eq
    rw [hnil] at this
    exact List.length_eq_zero.mp this.symm
  obtain ⟨a, t, hst⟩ := List.exists_cons_of_ne_nil hsne
  refine ⟨a, ?_, ?_⟩
  · exact hperm.mem_iff.mp (hst ▸ List.mem_cons_self a t)
  · unfold np_percentile
    rw [hst]
    exact head_le_percentile_of_sorted a t q hq (hst ▸ hsorted)

lemma list_mean_le_of_forall_le (l : List ℚ) (t : ℚ) (hne : l ≠ []) (h : ∀ x ∈ l, x ≤ t) :
    list_mean l ≤ t := by
  unfold list_mean
  have hlen : 0 < (l.length : ℚ) := by
    have := List.length_pos.mpr hne
    exact_mod_cast this
  rw [div_le_iff₀ hlen]
  have hs := List.sum_le_card_nsmul l t h
  rw [nsmul_eq_mul] at hs
  linarith [hs]

lemma var_le_cvar_at (initial_value q : ℚ) (final_values : List ℚ)
    (hne : final_values ≠ []) (hq : 0 ≤ q) :
    initial_value - np_percentile final_values q ≤
      initial_value -
        list_mean (final_values.filter (fun v => v ≤ np_percentile final_values q)) := by
  obtain ⟨x, hx_mem, hx_le⟩ := exists_mem_le_np_percentile final_values q hne hq
  have hx_filter : x ∈ final_values.filter (fun v => v ≤ np_percentile final_values q) :=
    List.mem_filter.mpr ⟨hx_mem, by simpa using hx_le⟩
  have hfne : final_values.filter (fun v => v ≤ np_percentile final_values q) ≠ [] := by
    intro hnil
    rw [hnil] at hx_filter
    exact absurd hx_filter (List.not_mem_nil x)
  have hall : ∀ y ∈ final_values.filter (fun v => v ≤ np_percentile final_values q),
      y ≤ np_percentile final_values q := by
    intro y hy
    simpa using (List.mem_filter.mp hy).2
  have := list_mean_le_of_forall_le _ _ hfne hall
  linarith

/-- C6: for every nonempty terminal distribution (in particular every
non-degenerate one) the CVaR reported by `_calculate_statistics` is at least
the VaR at the same confidence level, at both 95% and 99%: the tail set
contains the distribution minimum, so its mean is at most the percentile
threshold. -/
theorem c6_cvar_ge_var (initial_value : ℚ) (final_values : List ℚ)
    (h : final_values ≠ []) :
    (calculate_statistics initial_value final_values).var_95 ≤
        (calculate_statistics initial_value final_values).cvar_95 ∧
      (calculate_statistics initial_value final_values).var_99 ≤
        (calculate_statistics initial_value final_values).cvar_99 := by
  constructor
  · simpa [calculate_statistics] using
      var_le_cvar_at initial_value 5 final_values h (by norm_num)
  · simpa [calculate_statistics] using
      var_le_cvar_at initial_value 1 final_values h (by norm_num)

/-- C6 witness: the CVaR-dominates-VaR theorem applied to the concrete
terminal distribution [100, 120] with initial value 110. -/
theorem c6_cvar_ge_var_witness :
    ([100, 120] : List ℚ) ≠ [] ∧
      ((calculate_statistics 110 [100, 120]).var_95 ≤
          (calculate_statistics 110 [100, 120]).cvar_95 ∧
        (calculate_statistics 110 [100, 120]).var_99 ≤
          (calculate_statistics 110 [100, 120]).cvar_99) :=
  ⟨by simp, c6_cvar_ge_var 110 [100, 120] (by simp)⟩

/-- C4 counterexample: the reported VaR is the raw difference
`initial_value - percentile` with no clamping, so on the terminal
distribution [110, 110] with initial value 100 both reported VaR values are
-10 < 0 - the claim that both reported values are non-negative for every
terminal distribution fails (such distributions arise whenever the low
percentiles of the simulated terminal values exceed the initial value). -/
theorem c4_var_can_be_negative :
    (calculate_statistics 100 [110, 110]).var_95 = -10 ∧
      (calculate_statistics 100 [110, 110]).var_99 = -10 := by
  norm_num [calculate_statistics, np_percentile, percentile_of_sorted,
    List.insertionSort, List.orderedInsert]

end IBAnalysis

namespace IBAnalysis

/-- Models `np.random.Generator`: an instance-local stream of standard-normal
draws plus a cursor.  Drawing a block advances the cursor by the block size,
so the amount of randomness a code path consumes is visible in `pos`. -/
structure Rng where
  stream : ℕ → ℚ
  pos : ℕ := 0

/-- Models `rng.standard_normal((rows, cols))`: a (rows, cols) matrix of
consecutive stream values in C order, advancing the cursor by rows*cols. -/
def Rng.draw_matrix (r : Rng) (rows cols : ℕ) : (ℕ → ℕ → ℚ) × Rng :=
  (fun i j => r.stream (r.pos + (i * cols + j)), { r with pos := r.pos + rows * cols })

/-- Models `rng.standard_normal((n1, n2, n3))` in C order. -/
def Rng.draw_tensor (r : Rng) (n1 n2 n3 : ℕ) : (ℕ → ℕ → ℕ → ℚ) × Rng :=
  (fun i j k => r.stream (r.pos + ((i * n2 + j) * n3 + k)),
    { r with pos := r.pos + n1 * n2 * n3 })

/-- Embeds `SimulationConfig` (monte_carlo/models.py lines 10-17) with its
defaults, in particular `use_antithetic = True`. -/
structure SimulationConfig where
  num_paths : ℕ := 10000
  num_days : ℕ := 30
  random_seed : Option ℤ := none
  risk_free_rate : ℚ := 5/100
  use_antithetic : Bool := true
  use_control_variate : Bool := false

/-- Embeds the `MonteCarloSimulator` state: the stored config and the
instance-local generator `self.rng`. -/
structure MonteCarloSimulator where
  config : SimulationConfig
  rng : Rng

/-- Embeds `MonteCarloSimulator.__init__` (simulator.py lines 27-53):
stores the config and creates a local generator with
`np.random.default_rng(random_seed)`.  `default_rng` maps an explicit seed
deterministically to a stream; `os_entropy` stands for the fresh
OS-entropy stream `default_rng(None)` would use, and is ignored whenever an
explicit seed is given. -/
def mkMonteCarloSimulator (default_rng : ℤ → ℕ → ℚ) (os_entropy : ℕ → ℚ)
    (num_paths num_days : ℕ) (random_seed : Option ℤ) (risk_free_rate : ℚ) :
    MonteCarloSimulator :=
  { config :=
      { num_paths := num_paths, num_days := num_days, random_seed := random_seed,
        risk_free_rate := risk_free_rate }
    rng :=
      { stream :=
          match random_seed with
          | some s => default_rng s
          | none => os_entropy
        pos := 0 } }

/-- Embeds the innovation-drawing block of
`MonteCarloSimulator.simulate_price_paths` (simulator.py lines 95-104): with
antithetic variates on, draw num_paths // 2 rows, mirror them with sign
flip via `np.concatenate([z_half, -z_half])`, and append one extra
independent row when num_paths is odd; with the flag off, draw the full
(num_paths, num_days) block. -/
def MonteCarloSimulator.draw_z (sim : MonteCarloSimulator) : (ℕ → ℕ → ℚ) × Rng :=
  if sim.config.use_antithetic then
    let half_paths := sim.config.num_paths / 2
    let zr := sim.rng.draw_matrix half_paths sim.config.num_days
    let z : ℕ → ℕ → ℚ :=
      fun i j => if i < half_paths then zr.1 i j else -(zr.1 (i - half_paths) j)
    if sim.config.num_paths % 2 = 1 then
      let er := zr.2.draw_matrix 1 sim.config.num_days
      (fun i j => if i < 2 * half_paths then z i j else er.1 0 j, er.2)
    else (z, zr.2)
  else sim.rng.draw_matrix sim.config.num_paths sim.config.num_days

/-- Embeds `MonteCarloSimulator.simulate_price_paths` (simulator.py lines
60-121): GBM paths with daily step dt = 1/252, drift defaulting to
risk_free_rate - dividend_yield, day 0 pinned at the current price and
day j = S0 * exp(cumulative log-returns through day j). -/
def MonteCarloSimulator.simulate_price_paths (sim : MonteCarloSimulator) (p : MathPrims)
    (current_price volatility : ℚ) (drift : Option ℚ) (dividend_yield : ℚ) :
    (ℕ → ℕ → ℚ) × Rng :=
  let mu := drift.getD (sim.config.risk_free_rate - dividend_yield)
  let dt : ℚ := 1/252
  let zr := sim.draw_z
  let daily_drift := (mu - 1/2 * volatility^2) * dt
  let daily_vol := volatility * p.sqrt dt
  let log_returns : ℕ → ℕ → ℚ := fun i j => daily_drift + daily_vol * zr.1 i j
  (fun i j =>
      if j = 0 then current_price
      else current_price * p.exp (∑ k ∈ Finset.range j, log_returns i k),
    zr.2)

/-- Embeds the innovation-drawing block of
`MonteCarloSimulator.simulate_correlated_prices` (simulator.py lines
148-159): with a correlation matrix, draw a full (num_paths, num_days,
n_assets) independent block and multiply by the Cholesky factor
(`np.einsum('ijk,lk->ijl', z_independent, cholesky)`); without one, draw the
same full independent block.  Neither branch consults `use_antithetic`. -/
def MonteCarloSimulator.correlated_z (sim : MonteCarloSimulator) (p : MathPrims)
    (n_assets : ℕ) (correlation_matrix : Option (ℕ → ℕ → ℚ)) : (ℕ → ℕ → ℕ → ℚ) × Rng :=
  match correlation_matrix with
  | some corr =>
    let chol := p.cholesky corr
    let zr := sim.rng.draw_tensor sim.config.num_paths sim.config.num_days n_assets
    (fun i j l => ∑ k ∈ Finset.range n_assets, zr.1 i j k * chol l k, zr.2)
  | none => sim.rng.draw_tensor sim.config.num_paths sim.config.num_days n_assets

/-- Embeds `MonteCarloSimulator.simulate_correlated_prices` (simulator.py
lines 123-185): per-asset GBM recursion driven by the (possibly
Cholesky-correlated) innovations of `correlated_z`, drift = risk_free_rate
minus the per-symbol dividend yield (defaulting to 0), day 0 pinned at the
current price.  Dictionaries are modelled as association lists in insertion
order; the source indexes `prices[symbol]` directly (a KeyError on a missing
key), modelled with a default of 0 that no modelled caller reaches. -/
def MonteCarloSimulator.simulate_correlated_prices (sim : MonteCarloSimulator) (p : MathPrims)
    (prices volatilities : List (String × ℚ)) (correlation_matrix : Option (ℕ → ℕ → ℚ))
    (dividend_yields : Option (List (String × ℚ))) : List (String × (ℕ → ℕ → ℚ)) × Rng :=
  let symbols := prices.map Prod.fst
  let n_assets := symbols.length
  let dyl := dividend_yields.getD (symbols.map (fun s => (s, (0 : ℚ))))
  let zr := sim.correlated_z p n_assets correlation_matrix
  let dt : ℚ := 1/252
  let result := (List.range n_assets).map (fun a =>
    let symbol := symbols.getD a ("")
    let price := (List.lookup symbol prices).getD 0
    let vol := (List.lookup symbol volatilities).getD 0
    let div := (List.lookup symbol dyl).getD 0
    let drift := sim.config.risk_free_rate - div
    let daily_drift := (drift - 1/2 * vol^2) * dt
    let daily_vol := vol * p.sqrt dt
    (symbol, fun i j =>
      if j = 0 then price
      else price * p.exp (∑ k ∈ Finset.range j, (daily_drift + daily_vol * zr.1 i k a))))
  (result, zr.2)

/-- C7: two simulator instances constructed with the same explicit seed and
the same paths/days/rate produce identical price-path arrays on the same
inputs, for both the single-asset and the correlated generator.  The
OS-entropy streams of the two constructions are quantified independently
(`os_entropy1`, `os_entropy2`): the construction provably never reads them
when an explicit seed is supplied, so each instance depends only on its own
constructor-injected seed and no shared global state. -/
theorem c7_same_seed_identical_paths (default_rng : ℤ → ℕ → ℚ)
    (os_entropy1 os_entropy2 : ℕ → ℚ) (num_paths num_days : ℕ) (s : ℤ)
    (risk_free_rate : ℚ) (p : MathPrims) (current_price volatility : ℚ)
    (drift : Option ℚ) (dividend_yield : ℚ) (prices volatilities : List (String × ℚ))
    (corr : Option (ℕ → ℕ → ℚ)) (dy : Option (List (String × ℚ))) :
    (mkMonteCarloSimulator default_rng os_entropy1 num_paths num_days (some s)
          risk_free_rate).simulate_price_paths p current_price volatility drift dividend_yield
        = (mkMonteCarloSimulator default_rng os_entropy2 num_paths num_days (some s)
          risk_free_rate).simulate_price_paths p current_price volatility drift
          dividend_yield ∧
      (mkMonteCarloSimulator default_rng os_entropy1 num_paths num_days (some s)
          risk_free_rate).simulate_correlated_prices p prices volatilities corr dy
        = (mkMonteCarloSimulator default_rng os_entropy2 num_paths num_days (some s)
          risk_free_rate).simulate_correlated_prices p prices volatilities corr dy :=
  ⟨rfl, rfl⟩

/-- Simulator instance for the C5 refutation: default flags (antithetic on),
2 paths, 1 day, explicit seed, and a draw stream whose k-th value is k+1. -/
def c5_sim : MonteCarloSimulator :=
  mkMonteCarloSimulator (fun _ k => (k : ℚ) + 1) (fun k => (k : ℚ) + 1) 2 1 (some 0) (5/100)

/-- C5 counterexample: with antithetic variates enabled (the default), the
multi-asset correlated generator - the one `simulate_portfolio` actually
calls - draws a full independent innovation block with no sign-flipped
mirroring: with 2 requested paths and 1 day its two innovations are the
consecutive draws 1 and 2 (and 2 ≠ -1), and the generator consumed 2 draws,
not the 1 draw the antithetic scheme would use. -/
theorem c5_correlated_generator_not_antithetic :
    c5_sim.config.use_antithetic = true ∧
      (c5_sim.correlated_z ratPrims 1 none).1 0 0 0 = 1 ∧
      (c5_sim.correlated_z ratPrims 1 none).1 1 0 0 = 2 ∧
      ¬((c5_sim.correlated_z ratPrims 1 none).1 1 0 0 =
        -((c5_sim.correlated_z ratPrims 1 none).1 0 0 0)) ∧
      (c5_sim.correlated_z ratPrims 1 none).2.pos = 2 := by
  refine ⟨rfl, ?_, ?_, ?_, rfl⟩ <;>
    norm_num [c5_sim, mkMonteCarloSimulator, MonteCarloSimulator.correlated_z,
      Rng.draw_tensor]

/-- C5 amended: the antithetic mirroring holds only in the single-asset
generator `simulate_price_paths`: with the flag on, its innovation matrix
satisfies z[half+i] = -z[i] for i < half = num_paths // 2 and consumes
half*num_days draws plus num_days extra when num_paths is odd.  The
correlated multi-asset generator used by `simulate_portfolio` instead
returns the raw independent draws (shown for no correlation matrix) and
always consumes the full num_paths*num_days*n_assets draws, with or without
a correlation matrix, irrespective of the flag. -/
theorem c5_antithetic_single_asset_only (sim : MonteCarloSimulator)
    (hA : sim.config.use_antithetic = true) (i j : ℕ)
    (hi : i < sim.config.num_paths / 2) (p : MathPrims)
    (n_assets i' j' k' : ℕ) (corr : Option (ℕ → ℕ → ℚ)) :
    (sim.draw_z).1 (sim.config.num_paths / 2 + i) j = -((sim.draw_z).1 i j) ∧
      (sim.draw_z).2.pos = sim.rng.pos + (sim.config.num_paths / 2) * sim.config.num_days +
        (if sim.config.num_paths % 2 = 1 then sim.config.num_days else 0) ∧
      (sim.correlated_z p n_assets none).1 i' j' k' =
        sim.rng.stream (sim.rng.pos + ((i' * sim.config.num_days + j') * n_assets + k')) ∧
      (sim.correlated_z p n_assets corr).2.pos =
        sim.rng.pos + sim.config.num_paths * sim.config.num_days * n_assets := by
  have h1 : ¬(sim.config.num_paths / 2 + i < sim.config.num_paths / 2) := by omega
  have h2 : sim.config.num_paths / 2 + i - sim.config.num_paths / 2 = i := by omega
  have h4 : sim.config.num_paths / 2 + i < 2 * (sim.config.num_paths / 2) := by omega
  have h5 : i < 2 * (sim.config.num_paths / 2) := by omega
  refine ⟨?_, ?_, ?_, ?_⟩
  · by_cases hodd : sim.config.num_paths % 2 = 1 <;>
      simp [MonteCarloSimulator.draw_z, hA, hodd, Rng.draw_matrix, h1, h2, h4, h5, hi]
  · by_cases hodd : sim.config.num_paths % 2 = 1 <;>
      simp [MonteCarloSimulator.draw_z, hA, hodd, Rng.draw_matrix]
  · simp [MonteCarloSimulator.correlated_z, Rng.draw_tensor]
  · cases corr <;> simp [MonteCarloSimulator.correlated_z, Rng.draw_tensor]

/-- Simulator instance for the C5 amended witness: antithetic on, 5 paths
(odd) and 1 day. -/
def c5w_sim : MonteCarloSimulator :=
  mkMonteCarloSimulator (fun _ k => (k : ℚ) + 1) (fun k => (k : ℚ) + 1) 5 1 (some 0) (5/100)

/-- C5 witness: the amended theorem applied to the concrete 5-path, 1-day
simulator at i = 1 < 5 // 2 = 2. -/
theorem c5_antithetic_single_asset_only_witness :
    c5w_sim.config.use_antithetic = true ∧ 1 < c5w_sim.config.num_paths / 2 ∧
      ((c5w_sim.draw_z).1 (c5w_sim.config.num_paths / 2 + 1) 0 = -((c5w_sim.draw_z).1 1 0) ∧
        (c5w_sim.draw_z).2.pos = c5w_sim.rng.pos +
          (c5w_sim.config.num_paths / 2) * c5w_sim.config.num_days +
          (if c5w_sim.config.num_paths % 2 = 1 then c5w_sim.config.num_days else 0) ∧
        (c5w_sim.correlated_z ratPrims 1 none).1 0 0 0 =
          c5w_sim.rng.stream (c5w_sim.rng.pos + ((0 * c5w_sim.config.num_days + 0) * 1 + 0)) ∧
        (c5w_sim.correlated_z ratPrims 1 none).2.pos =
          c5w_sim.rng.pos + c5w_sim.config.num_paths * c5w_sim.config.num_days * 1) :=
  ⟨rfl, by decide,
    c5_antithetic_single_asset_only c5w_sim rfl 1 0 (by decide) ratPrims 1 0 0 0 none⟩

end IBAnalysis

namespace IBAnalysis

/-- Embeds `OptionDetails` (ib_client/models.py lines 55-74).  The derived
`days_to_expiry = max(0, (expiry - date.today()).days)` is modelled by
storing the signed day difference `expiry_minus_today` with today
abstracted. -/
structure OptionDetails where
  strike : ℚ
  right : String
  expiry_minus_today : ℤ
  multiplier : ℤ := 100

/-- Embeds `OptionDetails.is_call`: the right field upper-cases to "C". -/
def OptionDetails.is_call (o : OptionDetails) : Bool := o.right.toUpper == "C"

/-- Embeds `OptionDetails.days_to_expiry`: days until expiry clamped at 0. -/
def OptionDetails.days_to_expiry (o : OptionDetails) : ℤ := max 0 o.expiry_minus_today

/-- Embeds `FuturesDetails` (models.py lines 77-88). -/
structure FuturesDetails where
  expiry_minus_today : ℤ
  multiplier : ℚ := 1

/-- Embeds `BondDetails` (models.py lines 103-115), with the derived
`days_to_maturity` modelled from the stored signed day difference. -/
structure BondDetails where
  maturity_minus_today : ℤ
  coupon_rate : ℚ := 0
  face_value : ℚ := 1000

/-- Embeds `BondDetails.days_to_maturity`: days until maturity clamped at 0. -/
def BondDetails.days_to_maturity (b : BondDetails) : ℤ := max 0 b.maturity_minus_today

/-- Embeds `Position` (ib_client/models.py lines 131-151) restricted to the
fields the Greeks aggregator and simulator read. -/
structure Position where
  symbol : String
  sec_type : String
  con_id : ℤ
  position : ℚ
  avg_cost : ℚ := 0
  market_price : ℚ := 0
  market_value : ℚ := 0
  option_details : Option OptionDetails := none
  futures_details : Option FuturesDetails := none
  bond_details : Option BondDetails := none

/-- Embeds `Position.is_stock` (sec_type "STK"). -/
def Position.is_stock (p : Position) : Bool := p.sec_type == "STK"

/-- Embeds `Position.is_option` (sec_type "OPT"). -/
def Position.is_option (p : Position) : Bool := p.sec_type == "OPT"

/-- Embeds `Position.is_futures` (sec_type "FUT"). -/
def Position.is_futures (p : Position) : Bool := p.sec_type == "FUT"

/-- Embeds `Position.is_forex` (sec_type "CASH"). -/
def Position.is_forex (p : Position) : Bool := p.sec_type == "CASH"

/-- Embeds `Position.is_bond` (sec_type "BOND"). -/
def Position.is_bond (p : Position) : Bool := p.sec_type == "BOND"

/-- Embeds `Position.is_cfd` (sec_type "CFD"). -/
def Position.is_cfd (p : Position) : Bool := p.sec_type == "CFD"

/-- Embeds `Position.is_futures_option` (sec_type "FOP"). -/
def Position.is_futures_option (p : Position) : Bool := p.sec_type == "FOP"

/-- Embeds `Position.is_warrant` (sec_type "WAR"). -/
def Position.is_warrant (p : Position) : Bool := p.sec_type == "WAR"

/-- Embeds `Position.is_fund` (sec_type "FUND"). -/
def Position.is_fund (p : Position) : Bool := p.sec_type == "FUND"

/-- Embeds `Position.is_crypto` (sec_type "CRYPTO"). -/
def Position.is_crypto (p : Position) : Bool := p.sec_type == "CRYPTO"

/-- Embeds `MarketData` (ib_client/models.py lines 272-286) restricted to
the fields the core reads. -/
structure MarketData where
  symbol : String
  con_id : ℤ
  bid : ℚ := 0
  ask : ℚ := 0
  last : ℚ := 0
  close : ℚ := 0
  implied_volatility : Option ℚ := none
  underlying_price : Option ℚ := none

/-- Embeds `MarketData.mid` (models.py lines 288-293). -/
def MarketData.mid (m : MarketData) : ℚ :=
  if 0 < m.bid ∧ 0 < m.ask then (m.bid + m.ask) / 2
  else if 0 < m.last then m.last else m.close

/-- Models Python truthiness of an `Optional[float]`: not None and nonzero. -/
def optional_truthy (o : Option ℚ) : Bool := decide (o.getD 0 ≠ 0)

/-- Embeds `GreeksCalculator.calculate_stock_greeks` (calculator.py lines
121-150): delta = position size, delta dollars = position * spot, every
other Greek 0 (the structure defaults). -/
def GreeksCalculator.calculate_stock_greeks (_c : GreeksCalculator)
    (spot position_size : ℚ) : Greeks :=
  { delta := position_size, delta_dollars := position_size * spot }

/-- Embeds `GreeksCalculator.calculate_futures_greeks` (lines 152-186):
delta = position * multiplier. -/
def GreeksCalculator.calculate_futures_greeks (_c : GreeksCalculator)
    (spot position_size multiplier : ℚ) : Greeks :=
  let effective_delta := position_size * multiplier
  { delta := effective_delta, delta_dollars := effective_delta * spot }

/-- Embeds `GreeksCalculator.calculate_forex_greeks` (lines 188-217). -/
def GreeksCalculator.calculate_forex_greeks (_c : GreeksCalculator)
    (spot position_size : ℚ) : Greeks :=
  { delta := position_size, delta_dollars := position_size * spot }

/-- Embeds `GreeksCalculator.calculate_fund_greeks` (lines 219-248). -/
def GreeksCalculator.calculate_fund_greeks (_c : GreeksCalculator)
    (spot position_size : ℚ) : Greeks :=
  { delta := position_size, delta_dollars := position_size * spot }

/-- Embeds `GreeksCalculator.calculate_crypto_greeks` (lines 250-279). -/
def GreeksCalculator.calculate_crypto_greeks (_c : GreeksCalculator)
    (spot position_size : ℚ) : Greeks :=
  { delta := position_size, delta_dollars := position_size * spot }

/-- Embeds `GreeksCalculator.calculate_cfd_greeks` (lines 281-310). -/
def GreeksCalculator.calculate_cfd_greeks (_c : GreeksCalculator)
    (spot position_size : ℚ) : Greeks :=
  { delta := position_size, delta_dollars := position_size * spot }

/-- Embeds `GreeksCalculator.calculate_bond_greeks` (lines 312-350):
delta = raw position size, rho = -duration * market_value / 100,
delta dollars = market value. -/
def GreeksCalculator.calculate_bond_greeks (_c : GreeksCalculator)
    (market_price position_size duration : ℚ) : Greeks :=
  let market_value := market_price * position_size
  let rho_sensitivity := -duration * market_value / 100
  { delta := position_size, rho := rho_sensitivity, delta_dollars := market_value }

/-- Embeds `GreeksCalculator._get_spot_price` (calculator.py lines 435-449):
quoted mid, then positive quoted underlying price, then the position market
price, then average cost, then the documented default 100. -/
def GreeksCalculator.get_spot_price (_c : GreeksCalculator) (pos : Position)
    (market_data : Option MarketData) : ℚ :=
  let from_market : Option ℚ :=
    match market_data with
    | some m =>
      if 0 < m.mid then some m.mid
      else if 0 < m.underlying_price.getD 0 then m.underlying_price
      else none
    | none => none
  match from_market with
  | some s => s
  | none =>
    if 0 < pos.market_price then pos.market_price
    else if 0 < pos.avg_cost then pos.avg_cost
    else 100

/-- Embeds `GreeksCalculator._calculate_option_position_greeks` (calculator.py
lines 451-480): underlying spot from the quote when truthy else the resolved
spot, volatility from the quote when truthy else the default, then
`calculate_option_greeks` on the option detail fields.  The Python source
would raise AttributeError were `option_details` None; every modelled caller
guards on its presence, and the unreachable branch returns zero Greeks. -/
def GreeksCalculator.calculate_option_position_greeks (c : GreeksCalculator) (p : MathPrims)
    (pos : Position) (market_data : Option MarketData) (spot : ℚ) : Greeks :=
  match pos.option_details with
  | none => {}
  | some opt =>
    let underlying_spot :=
      match market_data with
      | some m =>
        if optional_truthy m.underlying_price then m.underlying_price.getD 0 else spot
      | none => spot
    let volatility :=
      match market_data with
      | some m =>
        if optional_truthy m.implied_volatility then m.implied_volatility.getD 0
        else c.default_volatility
      | none => c.default_volatility
    c.calculate_option_greeks p underlying_spot opt.strike opt.days_to_expiry volatility
      opt.is_call pos.position opt.multiplier none

/-- Embeds `GreeksCalculator.calculate_position_greeks` (calculator.py lines
352-433): the instrument-kind dispatch chain, with the bond duration
estimate `min(years_to_maturity * 0.8, 10.0)` (default 5.0 without bond
details) and the equity-style fallback for unknown kinds. -/
def GreeksCalculator.calculate_position_greeks (c : GreeksCalculator) (p : MathPrims)
    (pos : Position) (market_data : Option MarketData) : Greeks :=
  let spot := c.get_spot_price pos market_data
  if pos.is_stock then c.calculate_stock_greeks spot pos.position
  else if pos.is_option ∧ pos.option_details.isSome then
    c.calculate_option_position_greeks p pos market_data spot
  else if pos.is_futures then
    c.calculate_futures_greeks spot pos.position ((pos.futures_details.map
      (fun f => f.multiplier)).getD 1)
  else if pos.is_forex then c.calculate_forex_greeks spot pos.position
  else if pos.is_cfd then c.calculate_cfd_greeks spot pos.position
  else if pos.is_futures_option ∧ pos.option_details.isSome then
    c.calculate_option_position_greeks p pos market_data spot
  else if pos.is_warrant ∧ pos.option_details.isSome then
    c.calculate_option_position_greeks p pos market_data spot
  else if pos.is_fund then c.calculate_fund_greeks spot pos.position
  else if pos.is_crypto then c.calculate_crypto_greeks spot pos.position
  else if pos.is_bond then
    let duration :=
      match pos.bond_details with
      | some bd => min ((bd.days_to_maturity : ℚ) / 365 * (8/10)) 10
      | none => 5
    c.calculate_bond_greeks spot pos.position duration
  else c.calculate_stock_greeks spot pos.position

end IBAnalysis

namespace IBAnalysis

/-- Embeds `GreeksByUnderlying` (greeks/models.py lines 65-74). -/
structure GreeksByUnderlying where
  symbol : String
  underlying_price : ℚ := 0
  position_count : ℕ := 0
  greeks : Greeks := {}
  stock_equivalent_shares : ℚ := 0

/-- Embeds `PortfolioGreeks` (greeks/models.py lines 82-119): nine running
totals, the by-underlying breakdown (a Python dict, modelled as an
association list in insertion order) and the weighted metrics. -/
structure PortfolioGreeks where
  total_delta : ℚ := 0
  total_gamma : ℚ := 0
  total_theta : ℚ := 0
  total_vega : ℚ := 0
  total_rho : ℚ := 0
  total_delta_dollars : ℚ := 0
  total_gamma_dollars : ℚ := 0
  total_theta_dollars : ℚ := 0
  total_vega_dollars : ℚ := 0
  by_underlying : List (String × GreeksByUnderlying) := []
  net_delta_exposure : ℚ := 0
  weighted_average_iv : ℚ := 0
  days_to_nearest_expiry : Option ℤ := none
  weighted_dte : ℚ := 0

/-- Models Python dict item assignment `d[k] = v` on an association list:
an existing key keeps its slot and gets the new value, a new key is
appended. -/
def dict_insert {α : Type} (l : List (String × α)) (k : String) (v : α) :
    List (String × α) :=
  match l with
  | [] => [(k, v)]
  | (k', v') :: rest => if k' == k then (k', v) :: rest else (k', v') :: dict_insert rest k v

/-- Embeds `PortfolioGreeks.add_underlying_greeks` (greeks/models.py lines
121-135): store the breakdown entry under its symbol and add its nine
components onto the running totals (with no subtraction of any entry the
assignment replaced). -/
def PortfolioGreeks.add_underlying_greeks (pg : PortfolioGreeks) (symbol : String)
    (g : GreeksByUnderlying) : PortfolioGreeks :=
  { pg with
    by_underlying := dict_insert pg.by_underlying symbol g
    total_delta := pg.total_delta + g.greeks.delta
    total_gamma := pg.total_gamma + g.greeks.gamma
    total_theta := pg.total_theta + g.greeks.theta
    total_vega := pg.total_vega + g.greeks.vega
    total_rho := pg.total_rho + g.greeks.rho
    total_delta_dollars := pg.total_delta_dollars + g.greeks.delta_dollars
    total_gamma_dollars := pg.total_gamma_dollars + g.greeks.gamma_dollars
    total_theta_dollars := pg.total_theta_dollars + g.greeks.theta_dollars
    total_vega_dollars := pg.total_vega_dollars + g.greeks.vega_dollars }

/-- The nine running totals of a `PortfolioGreeks` packaged as one `Greeks`
value, so that "each of the nine totals" is a single structure equality. -/
def PortfolioGreeks.totals (pg : PortfolioGreeks) : Greeks :=
  { delta := pg.total_delta, gamma := pg.total_gamma, theta := pg.total_theta,
    vega := pg.total_vega, rho := pg.total_rho,
    delta_dollars := pg.total_delta_dollars, gamma_dollars := pg.total_gamma_dollars,
    theta_dollars := pg.total_theta_dollars, vega_dollars := pg.total_vega_dollars }

/-- Component-wise sum of a list of Greeks values. -/
def greeks_sum (l : List Greeks) : Greeks := l.foldr Greeks.add {}

/-- The component-wise sum of the Greeks of all entries currently in the
by-underlying breakdown. -/
def PortfolioGreeks.breakdown_sum (pg : PortfolioGreeks) : Greeks :=
  greeks_sum (pg.by_underlying.map (fun e => e.2.greeks))

lemma greeks_add_zero (a : Greeks) : a.add {} = a := by
  ext <;> simp [Greeks.add]

lemma greeks_zero_add (a : Greeks) : Greeks.add {} a = a := by
  ext <;> simp [Greeks.add]

lemma greeks_add_assoc (a b c : Greeks) : (a.add b).add c = a.add (b.add c) := by
  ext <;> simp [Greeks.add] <;> ring

lemma dict_insert_of_not_mem {α : Type} (l : List (String × α)) (k : String) (v : α)
    (h : k ∉ l.map Prod.fst) : dict_insert l k v = l ++ [(k, v)] := by
  induction l with
  | nil => rfl
  | cons hd tl ih =>
    simp only [List.map_cons, List.mem_cons] at h
    push_neg at h
    obtain ⟨h1, h2⟩ := h
    have : (hd.1 == k) = false := beq_false_of_ne (fun he => h1 he.symm)
    simp [dict_insert, this, ih h2]

lemma fold_add_underlying_spec (entries : List (String × GreeksByUnderlying)) :
    ∀ pg : PortfolioGreeks, (entries.map Prod.fst).Nodup →
      (∀ s ∈ entries.map Prod.fst, s ∉ pg.by_underlying.map Prod.fst) →
      (entries.foldl (fun acc e => acc.add_underlying_greeks e.1 e.2) pg).totals =
          pg.totals.add (greeks_sum (entries.map (fun e => e.2.greeks))) ∧
        (entries.foldl (fun acc e => acc.add_underlying_greeks e.1 e.2) pg).by_underlying =
          pg.by_underlying ++ entries := by
  induction entries with
  | nil =>
    intro pg _ _
    exact ⟨by simp [greeks_sum, greeks_add_zero], by simp⟩
  | cons e rest ih =>
    intro pg hnodup hdisj
    have he1 : e.1 ∉ pg.by_underlying.map Prod.fst := hdisj e.1 (by simp)
    have hby : (pg.add_underlying_greeks e.1 e.2).by_underlying =
        pg.by_underlying ++ [e] := by
      simp [PortfolioGreeks.add_underlying_greeks, dict_insert_of_not_mem _ _ _ he1]
    have htot : (pg.add_underlying_greeks e.1 e.2).totals = pg.totals.add e.2.greeks := by
      simp [PortfolioGreeks.add_underlying_greeks, PortfolioGreeks.totals, Greeks.add]
    have hnodup' : (rest.map Prod.fst).Nodup := by
      simp only [List.map_cons, List.nodup_cons] at hnodup
      exact hnodup.2
    have hne : e.1 ∉ rest.map Prod.fst := by
      simp only [List.map_cons, List.nodup_cons] at hnodup
      exact hnodup.1
    have hdisj' : ∀ s ∈ rest.map Prod.fst,
        s ∉ (pg.add_underlying_greeks e.1 e.2).by_underlying.map Prod.fst := by
      intro s hs
      rw [hby]
      simp only [List.map_append, List.mem_append]
      push_neg
      refine ⟨hdisj s (by simp [hs]), ?_⟩
      simp only [List.map_cons, List.map_nil, List.mem_cons]
      intro hcon
      rcases hcon with hcon | hcon
      · exact hne (hcon ▸ hs)
      · exact absurd hcon (List.not_mem_nil s)
    obtain ⟨ht, hb⟩ := ih (pg.add_underlying_greeks e.1 e.2) hnodup' hdisj'
    constructor
    · rw [List.foldl_cons, ht, htot, greeks_add_assoc]
      simp [greeks_sum]
    · rw [List.foldl_cons, hb, hby, List.append_assoc]
      rfl

/-- Dict-style key collection in first-occurrence order, as Python builds
the `underlying_groups` keys (calculator.py lines 503-510). -/
def first_keys (l : List String) : List String :=
  l.foldl (fun acc s => if s ∈ acc then acc else acc ++ [s]) []

lemma first_keys_aux_nodup (l : List String) :
    ∀ acc : List String, acc.Nodup →
      (l.foldl (fun acc s => if s ∈ acc then acc else acc ++ [s]) acc).Nodup := by
  induction l with
  | nil => intro acc h; simpa using h
  | cons hd tl ih =>
    intro acc h
    rw [List.foldl_cons]
    by_cases hmem : hd ∈ acc
    · simpa [hmem] using ih acc h
    · have hdisjoint : List.Disjoint acc [hd] := by
        intro a ha hb
        simp only [List.mem_singleton] at hb
        exact hmem (hb ▸ ha)
      have : (acc ++ [hd]).Nodup := by
        rw [List.nodup_append]
        exact ⟨h, List.nodup_singleton hd, hdisjoint⟩
      simpa [hmem] using ih (acc ++ [hd]) this

lemma first_keys_nodup (l : List String) : (first_keys l).Nodup :=
  first_keys_aux_nodup l [] List.nodup_nil

/-- The aggregation loop of `calculate_portfolio_greeks` (calculator.py lines
524-565): feed each per-underlying summary through `add_underlying_greeks`,
starting from a fresh `PortfolioGreeks`. -/
def aggregate_groups (entries : List (String × GreeksByUnderlying)) : PortfolioGreeks :=
  entries.foldl (fun acc e => acc.add_underlying_greeks e.1 e.2) {}

lemma aggregate_groups_invariant (entries : List (String × GreeksByUnderlying))
    (h : (entries.map Prod.fst).Nodup) :
    (aggregate_groups entries).totals = (aggregate_groups entries).breakdown_sum := by
  obtain ⟨ht, hb⟩ := fold_add_underlying_spec entries {} h (by simp)
  unfold aggregate_groups
  rw [ht, show PortfolioGreeks.totals {} = ({} : Greeks) from rfl, greeks_zero_add]
  unfold PortfolioGreeks.breakdown_sum
  rw [hb]
  simp

lemma portfolio_totals_update (pg : PortfolioGreeks) (a b : ℚ) (d : Option ℤ) :
    ({ pg with
        weighted_average_iv := a
        weighted_dte := b
        days_to_nearest_expiry := d } : PortfolioGreeks).totals = pg.totals := rfl

lemma portfolio_breakdown_update (pg : PortfolioGreeks) (a b : ℚ) (d : Option ℤ) :
    ({ pg with
        weighted_average_iv := a
        weighted_dte := b
        days_to_nearest_expiry := d } : PortfolioGreeks).breakdown_sum =
      pg.breakdown_sum := rfl

/-- Embeds `GreeksCalculator.calculate_portfolio_greeks` (calculator.py lines
482-595): group positions by symbol in first-occurrence order, sum each
group with Greeks addition into a `GreeksByUnderlying` summary, feed every
summary through `add_underlying_greeks`, and fill the vega-weighted IV,
value-weighted DTE and nearest-expiry metrics.  The per-group running
accumulators of the source are folds over the same multiset of positions,
written here as flat folds (addition, min and sums are order-insensitive). -/
def GreeksCalculator.calculate_portfolio_greeks (c : GreeksCalculator) (p : MathPrims)
    (positions : List Position) (market_data : Option (List (ℤ × MarketData))) :
    PortfolioGreeks :=
  let md_for : Position → Option MarketData := fun pos =>
    match market_data with
    | some l => List.lookup pos.con_id l
    | none => none
  let symbols := first_keys (positions.map (fun pos => pos.symbol))
  let groups : List (String × List Position) :=
    symbols.map (fun s => (s, positions.filter (fun pos => pos.symbol == s)))
  let summary : String × List Position → GreeksByUnderlying := fun g =>
    let underlying_greeks := g.2.foldl
      (fun acc pos => acc.add (c.calculate_position_greeks p pos (md_for pos))) {}
    let underlying_price := g.2.foldl
      (fun acc pos =>
        match md_for pos with
        | some m =>
          if pos.is_stock then m.mid
          else if optional_truthy m.underlying_price then m.underlying_price.getD 0
          else acc
        | none => acc) 0
    { symbol := g.1, underlying_price := underlying_price, position_count := g.2.length,
      greeks := underlying_greeks, stock_equivalent_shares := underlying_greeks.delta }
  let pg0 := aggregate_groups (groups.map (fun g => (g.1, summary g)))
  let iv_weight : Position → ℚ := fun pos =>
    match md_for pos with
    | some m =>
      if pos.is_option ∧ optional_truthy m.implied_volatility then
        |(c.calculate_position_greeks p pos (md_for pos)).vega_dollars|
      else 0
    | none => 0
  let total_vega_weighted_iv := (positions.map (fun pos =>
    ((md_for pos).bind (fun m => m.implied_volatility)).getD 0 * iv_weight pos)).sum
  let total_vega := (positions.map iv_weight).sum
  let dte_positions := positions.filter
    (fun pos => pos.is_option && pos.option_details.isSome)
  let min_dte : Option ℤ := dte_positions.foldl
    (fun acc pos =>
      let dte := ((pos.option_details.map (fun o => o.days_to_expiry)).getD 0)
      match acc with
      | none => some dte
      | some m => if dte < m then some dte else some m) none
  let total_value_weighted_dte := (dte_positions.map (fun pos =>
    (((pos.option_details.map (fun o => o.days_to_expiry)).getD 0 : ℚ)) *
      |pos.market_value|)).sum
  let total_option_value := (dte_positions.map (fun pos => |pos.market_value|)).sum
  { pg0 with
    weighted_average_iv :=
      if 0 < total_vega then total_vega_weighted_iv / total_vega else 0
    weighted_dte :=
      if 0 < total_option_value then total_value_weighted_dte / total_option_value else 0
    days_to_nearest_expiry := min_dte }

/-- C8 counterexample: a second `add_underlying_greeks` call that reuses an
already-present symbol replaces the breakdown entry but adds its components
onto the totals a second time: after inserting the same delta-1 entry twice
under "AAPL", total_delta is 2 while the breakdown entries sum to 1, so the
totals/breakdown invariant fails for sequences that reuse a symbol. -/
theorem c8_totals_break_on_symbol_reuse :
    ((({} : PortfolioGreeks).add_underlying_greeks ("AAPL")
          { symbol := "AAPL", greeks := { delta := 1 } }).add_underlying_greeks ("AAPL")
          { symbol := "AAPL", greeks := { delta := 1 } }).total_delta = 2 ∧
      ((({} : PortfolioGreeks).add_underlying_greeks ("AAPL")
          { symbol := "AAPL", greeks := { delta := 1 } }).add_underlying_greeks ("AAPL")
          { symbol := "AAPL", greeks := { delta := 1 } }).breakdown_sum.delta = 1 := by
  constructor <;>
    norm_num [PortfolioGreeks.add_underlying_greeks, dict_insert,
      PortfolioGreeks.breakdown_sum, greeks_sum, Greeks.add]

/-- C8 amended: every `PortfolioGreeks` built by the aggregation call
`calculate_portfolio_greeks` satisfies the invariant - for any positions of
any instrument kinds, each of the nine totals equals the component-wise sum
of the corresponding component over the by-underlying breakdown - because
the aggregation inserts each symbol exactly once (first-occurrence grouping
has no duplicate keys).  The invariant holds for any `add_underlying_greeks`
sequence with pairwise-distinct symbols, but not for sequences reusing a
symbol (`c8_totals_break_on_symbol_reuse`). -/
theorem c8_portfolio_totals_match_breakdown (c : GreeksCalculator) (p : MathPrims)
    (positions : List Position) (market_data : Option (List (ℤ × MarketData))) :
    (c.calculate_portfolio_greeks p positions market_data).totals =
      (c.calculate_portfolio_greeks p positions market_data).breakdown_sum := by
  simp only [GreeksCalculator.calculate_portfolio_greeks]
  rw [portfolio_totals_update, portfolio_breakdown_update]
  apply aggregate_groups_invariant
  simp only [List.map_map]
  simpa [Function.comp_def] using first_keys_nodup (positions.map (fun pos => pos.symbol))

/-- Embeds the per-cell P&L estimate of `GreeksCalculator.scenario_analysis`
(calculator.py lines 665-671), the value `total_pnl` stored (after rounding
to cents) in the scenario grid: `delta_pnl = delta_dollars * (spot_pct /
100)`, `gamma_pnl = 0.5 * gamma_dollars * spot_pct ** 2` (the raw percent
number squared, not divided by 100), `vega_pnl = vega_dollars * (iv_pct /
100)`. -/
def GreeksCalculator.scenario_pnl (base : PortfolioGreeks) (spot_pct iv_pct : ℚ) : ℚ :=
  let delta_pnl := base.total_delta_dollars * (spot_pct / 100)
  let gamma_pnl := 1/2 * base.total_gamma_dollars * spot_pct^2
  let vega_pnl := base.total_vega_dollars * (iv_pct / 100)
  delta_pnl + gamma_pnl + vega_pnl

/-- C9 counterexample: with delta$ = 100, gamma$ = 2, vega$ = 0 and a +10%
spot shock, the code computes 100*(10/100) + 0.5*2*10^2 = 110, which matches
neither the consistent-fraction reading (100*0.1 + 0.5*2*0.1^2 = 10.01) nor
the consistent-percent-number reading (100*10 + 0.5*2*100 = 1100): no single
shock value serves both the delta term and the gamma term. -/
theorem c9_scenario_units_mismatch :
    GreeksCalculator.scenario_pnl
        { total_delta_dollars := 100, total_gamma_dollars := 2 } 10 0 = 110 ∧
      (100 : ℚ) * (10 / 100) + 1/2 * 2 * (10 / 100)^2 + 0 * (0 / 100) = 10 + 1/100 ∧
      (100 : ℚ) * 10 + 1/2 * 2 * (10 : ℚ)^2 + 0 * (0 : ℚ) = 1100 ∧
      GreeksCalculator.scenario_pnl
          { total_delta_dollars := 100, total_gamma_dollars := 2 } 10 0 ≠ 10 + 1/100 ∧
      GreeksCalculator.scenario_pnl
          { total_delta_dollars := 100, total_gamma_dollars := 2 } 10 0 ≠ 1100 := by
  refine ⟨?_, by norm_num, by norm_num, ?_, ?_⟩ <;>
    norm_num [GreeksCalculator.scenario_pnl]

/-- C9 amended: the scenario P&L uses the fractional shock spot_pct/100 in
the delta and vega terms but squares the raw percent number in the gamma
term, i.e. the gamma term sees a shock 100 times the one the delta term
sees: P&L = delta$ * x + 0.5 * gamma$ * (100 * x)^2 + vega$ * y with
x = spot_pct/100 and y = iv_pct/100. -/
theorem c9_gamma_term_uses_percent_number (base : PortfolioGreeks) (spot_pct iv_pct : ℚ) :
    GreeksCalculator.scenario_pnl base spot_pct iv_pct =
      base.total_delta_dollars * (spot_pct / 100) +
        1/2 * base.total_gamma_dollars * (100 * (spot_pct / 100))^2 +
        base.total_vega_dollars * (iv_pct / 100) := by
  unfold GreeksCalculator.scenario_pnl
  ring

end IBAnalysis

namespace IBAnalysis

/-- Embeds `MonteCarloSimulator.calculate_option_values` (simulator.py lines
187-242): at each (path, day), remaining dte = max(0, initial_dte - day); at
dte 0 the intrinsic value `np.maximum(spot - strike, 0)` (resp. put), else
the BSM price at the path spot (the source calls `call_price`/`put_price`
with the default dividend yield 0), scaled by position_size * multiplier. -/
def MonteCarloSimulator.calculate_option_values (sim : MonteCarloSimulator) (p : MathPrims)
    (price_paths : ℕ → ℕ → ℚ) (strike : ℚ) (is_call : Bool) (initial_dte : ℤ)
    (volatility position_size : ℚ) (multiplier : ℤ) : ℕ → ℕ → ℚ :=
  fun path day =>
    let dte := max 0 (initial_dte - (day : ℤ))
    let time_to_expiry := (dte : ℚ) / 365
    if time_to_expiry ≤ 0 then
      let intrinsic :=
        if is_call then max (price_paths path day - strike) 0
        else max (strike - price_paths path day) 0
      intrinsic * position_size * (multiplier : ℚ)
    else
      (if is_call then
        BlackScholesModel.call_price p (price_paths path day) strike time_to_expiry
          sim.config.risk_free_rate volatility 0
      else
        BlackScholesModel.put_price p (price_paths path day) strike time_to_expiry
          sim.config.risk_free_rate volatility 0) * position_size * (multiplier : ℚ)

/-- The `SimulationResult` fields the claims reference (monte_carlo/models.py
lines 84-134). -/
structure SimResult where
  initial_portfolio_value : ℚ
  portfolio_value_paths : ℕ → ℕ → ℚ
  final_values : List ℚ
  pnl_distribution : List ℚ
  return_distribution : List ℚ
  statistics : RiskStats

/-- Embeds `MonteCarloSimulator.simulate_portfolio` (simulator.py lines
244-385): resolve per-underlying prices (first position of each symbol wins)
and volatilities (default 0.25, raised to the highest quoted IV among the
symbol's option positions), generate paths with
`simulate_correlated_prices`, set the initial value to the sum of absolute
position market values (line 305), accumulate stock values (position *
path) and option values (`calculate_option_values`) into the portfolio
paths - positions of any other kind contribute nothing (lines 315-335) -
and derive final values, P&L = final - initial, returns = P&L/initial when
the initial value is positive else zeros (lines 337-340), and the
statistics block.  The source's per-group accumulation is a sum over the
same multiset of positions, written here as a flat sum. -/
def MonteCarloSimulator.simulate_portfolio (sim : MonteCarloSimulator) (p : MathPrims)
    (positions : List Position) (market_data : Option (List (ℤ × MarketData)))
    (correlation_matrix : Option (ℕ → ℕ → ℚ)) : SimResult :=
  let md_for : Position → Option MarketData := fun pos =>
    match market_data with
    | some l => List.lookup pos.con_id l
    | none => none
  let resolve_price : Position → ℚ := fun pos =>
    match md_for pos with
    | some m =>
      if pos.is_stock then m.mid
      else if optional_truthy m.underlying_price then m.underlying_price.getD 0
      else if pos.market_price ≠ 0 then pos.market_price else pos.avg_cost
    | none => if pos.market_price ≠ 0 then pos.market_price else pos.avg_cost
  let symbols := first_keys (positions.map (fun pos => pos.symbol))
  let underlying_prices : List (String × ℚ) := symbols.map (fun s =>
    (s, ((positions.find? (fun pos => pos.symbol == s)).map resolve_price).getD 0))
  let underlying_vols : List (String × ℚ) := symbols.map (fun s =>
    (s, (positions.filter (fun pos => pos.symbol == s)).foldl
      (fun acc pos =>
        if pos.is_option then
          match md_for pos with
          | some m =>
            if optional_truthy m.implied_volatility then
              max acc (m.implied_volatility.getD 0)
            else acc
          | none => acc
        else acc) (1/4)))
  let pr := sim.simulate_correlated_prices p underlying_prices underlying_vols
    correlation_matrix none
  let initial_value := (positions.map (fun pos => |pos.market_value|)).sum
  let contribution : Position → (ℕ → ℕ → ℚ) := fun pos =>
    let symbol_paths := (List.lookup pos.symbol pr.1).getD (fun _ _ => 0)
    if pos.is_stock then fun i j => pos.position * symbol_paths i j
    else
      match pos.option_details with
      | some opt =>
        if pos.is_option then
          sim.calculate_option_values p symbol_paths opt.strike opt.is_call
            opt.days_to_expiry ((List.lookup pos.symbol underlying_vols).getD 0)
            pos.position opt.multiplier
        else fun _ _ => 0
      | none => fun _ _ => 0
  let portfolio_paths : ℕ → ℕ → ℚ := fun i j =>
    (positions.map (fun pos => contribution pos i j)).sum
  let final_values := (List.range sim.config.num_paths).map
    (fun i => portfolio_paths i sim.config.num_days)
  let pnl := final_values.map (fun v => v - initial_value)
  let returns :=
    if 0 < initial_value then pnl.map (fun x => x / initial_value)
    else pnl.map (fun _ => 0)
  { initial_portfolio_value := initial_value
    portfolio_value_paths := portfolio_paths
    final_values := final_values
    pnl_distribution := pnl
    return_distribution := returns
    statistics := calculate_statistics initial_value final_values }

/-- C10: `simulate_portfolio` sets the initial portfolio value to the sum of
the absolute position market values (a short position adds its magnitude),
every path P\&L is that path's terminal value minus this sum, and the
percentage returns are P\&L over the initial value when it is positive and
all zeros otherwise. -/
theorem c10_initial_value_pnl_returns (sim : MonteCarloSimulator) (p : MathPrims)
    (positions : List Position) (market_data : Option (List (ℤ × MarketData)))
    (corr : Option (ℕ → ℕ → ℚ)) :
    (sim.simulate_portfolio p positions market_data corr).initial_portfolio_value =
        (positions.map (fun pos => |pos.market_value|)).sum ∧
      (sim.simulate_portfolio p positions market_data corr).pnl_distribution =
        (sim.simulate_portfolio p positions market_data corr).final_values.map
          (fun v => v - (positions.map (fun pos => |pos.market_value|)).sum) ∧
      (sim.simulate_portfolio p positions market_data corr).return_distribution =
        (if 0 < (positions.map (fun pos => |pos.market_value|)).sum then
          (sim.simulate_portfolio p positions market_data corr).pnl_distribution.map
            (fun x => x / (positions.map (fun pos => |pos.market_value|)).sum)
        else
          (sim.simulate_portfolio p positions market_data corr).pnl_distribution.map
            (fun _ => (0 : ℚ))) :=
  ⟨rfl, rfl, rfl⟩

/-- C4 amended: the VaR values reported by `simulate_portfolio` are exactly
initial value minus the 5th (resp. 1st) percentile of the terminal
distribution, but they are not always non-negative: each is non-negative
precisely when the corresponding percentile does not exceed the initial
value (see `c4_var_can_be_negative` for a distribution where both are
negative). -/
theorem c4_var_is_percentile_gap (sim : MonteCarloSimulator) (p : MathPrims)
    (positions : List Position) (market_data : Option (List (ℤ × MarketData)))
    (corr : Option (ℕ → ℕ → ℚ)) :
    (sim.simulate_portfolio p positions market_data corr).statistics.var_95 =
        (sim.simulate_portfolio p positions market_data corr).initial_portfolio_value -
          np_percentile (sim.simulate_portfolio p positions market_data corr).final_values
            5 ∧
      (sim.simulate_portfolio p positions market_data corr).statistics.var_99 =
        (sim.simulate_portfolio p positions market_data corr).initial_portfolio_value -
          np_percentile (sim.simulate_portfolio p positions market_data corr).final_values
            1 ∧
      (0 ≤ (sim.simulate_portfolio p positions market_data corr).statistics.var_95 ↔
        np_percentile (sim.simulate_portfolio p positions market_data corr).final_values 5 ≤
          (sim.simulate_portfolio p positions market_data corr).initial_portfolio_value) ∧
      (0 ≤ (sim.simulate_portfolio p positions market_data corr).statistics.var_99 ↔
        np_percentile (sim.simulate_portfolio p positions market_data corr).final_values 1 ≤
          (sim.simulate_portfolio p positions market_data corr).initial_portfolio_value) :=
  ⟨rfl, rfl, sub_nonneg, sub_nonneg⟩

end IBAnalysis
